import Mathlib

/-!
Verification of the `gcp_sales_pipeline` export pipeline.

Shallow embedding of the core pipeline logic:
  * `filters.py` — `TimeGranularity`, `filter_sales_by_date`
  * `pipeline.py` — `_compute_date_range`, `_empty_final_dataframe`,
    `_enrich_with_date_and_metadata` (column-level model of the empty path),
    the catalog dedup, the left join and the business filters of `run_pipeline`
  * `gcs_client.py` — `load_sales_parquet` with an injected per-day fetch
    collaborator, tracking which days were actually fetched
  * `exceptions.py` — the error taxonomy

Dates are proleptic Gregorian triples, timestamps are UTC date-times;
dataframes are lists of typed rows, except for the empty-schema path where
a column-name-level model is used (the claim there is about column sets,
which a typed row would trivialize).
-/

namespace GcpSales

/-- Proleptic Gregorian calendar date (Python `datetime.date`). -/
structure Date where
  year : Nat
  month : Nat
  day : Nat
deriving DecidableEq, Repr

/-- Gregorian leap-year rule, as used by the Python `datetime` module. -/
def isLeap (y : Nat) : Bool :=
  (y % 4 == 0 && y % 100 != 0) || y % 400 == 0

/-- Number of days in a month of a given year (Python `calendar.monthrange`). -/
def daysInMonth (y m : Nat) : Nat :=
  if m == 2 then (if isLeap y then 29 else 28)
  else if m == 4 || m == 6 || m == 9 || m == 11 then 30
  else 31

/-- The previous calendar day: Python `d - timedelta(days=1)`. -/
def predDay (d : Date) : Date :=
  if d.day > 1 then ⟨d.year, d.month, d.day - 1⟩
  else if d.month > 1 then ⟨d.year, d.month - 1, daysInMonth d.year (d.month - 1)⟩
  else ⟨d.year - 1, 12, 31⟩

/-- The next calendar day: Python `d + timedelta(days=1)`. -/
def succDay (d : Date) : Date :=
  if d.day < daysInMonth d.year d.month then ⟨d.year, d.month, d.day + 1⟩
  else if d.month < 12 then ⟨d.year, d.month + 1, 1⟩
  else ⟨d.year + 1, 1, 1⟩

/-- Python `d + timedelta(days=n)`. -/
def addDays (d : Date) : Nat → Date
  | 0 => d
  | n + 1 => succDay (addDays d n)

/-- Days of the whole years before year `y` (proleptic Gregorian). -/
def daysBeforeYear (y : Nat) : Nat :=
  365 * (y - 1) + (y - 1) / 4 - (y - 1) / 100 + (y - 1) / 400

/-- Days of the months of year `y` strictly before month `m`. -/
def daysBeforeMonth (y m : Nat) : Nat :=
  (List.range (m - 1)).foldl (fun acc i => acc + daysInMonth y (i + 1)) 0

/-- Rata-die ordinal of a date (Python `date.toordinal`). -/
def toOrdinal (d : Date) : Nat :=
  daysBeforeYear d.year + daysBeforeMonth d.year d.month + d.day

/-- Python `date` comparison (lexicographic on year, month, day). -/
def dateLt (a b : Date) : Bool :=
  a.year < b.year ||
    (a.year == b.year && (a.month < b.month ||
      (a.month == b.month && a.day < b.day)))

/-- Model of `TimeGranularity` from `filters.py`: supported granularities. -/
inductive TimeGranularity where
  | day
  | month
  | quarter
  | year
deriving DecidableEq, Repr

/-- Model of `_compute_date_range` from `pipeline.py`: inclusive range
for the given reference date and granularity. -/
def compute_date_range (ref : Date) (g : TimeGranularity) : Date × Date :=
  match g with
  | .day => (ref, ref)
  | .month =>
      let start : Date := ⟨ref.year, ref.month, 1⟩
      let nextMonth : Date :=
        if ref.month == 12 then ⟨ref.year + 1, 1, 1⟩
        else ⟨ref.year, ref.month + 1, 1⟩
      (start, predDay nextMonth)
  | .quarter =>
      let q := (ref.month - 1) / 3 + 1
      let firstMonth := 3 * (q - 1) + 1
      let start : Date := ⟨ref.year, firstMonth, 1⟩
      let nextQStart : Date :=
        if q == 4 then ⟨ref.year + 1, 1, 1⟩
        else ⟨ref.year, firstMonth + 3, 1⟩
      (start, predDay nextQStart)
  | .year =>
      (⟨ref.year, 1, 1⟩, predDay ⟨ref.year + 1, 1, 1⟩)

/-- UTC date-time (Pandas timestamp after normalization with `utc=True`). -/
structure Timestamp where
  year : Nat
  month : Nat
  day : Nat
  hour : Nat
  minute : Nat
deriving DecidableEq, Repr

/-- A sales row (schema of the per-day Parquet files in `gcs_client.py`).
`product_id` is `Option` because the source data may carry NULL ids. -/
structure SaleRow where
  product_id : Option String
  price : Int
  quantity : Int
  sold_at : Timestamp
  order_id : String
deriving DecidableEq, Repr

/-- The per-granularity mask of `filter_sales_by_date` in `filters.py`:
DAY compares the calendar date, MONTH compares year and month, QUARTER
compares year and `(month - 1) / 3 + 1`, YEAR compares the year. -/
def granularityMask (ref : Date) (g : TimeGranularity) (t : Timestamp) : Bool :=
  match g with
  | .day => t.year == ref.year && t.month == ref.month && t.day == ref.day
  | .month => t.year == ref.year && t.month == ref.month
  | .quarter =>
      t.year == ref.year && ((t.month - 1) / 3 + 1) == ((ref.month - 1) / 3 + 1)
  | .year => t.year == ref.year

/-- Model of `filter_sales_by_date` from `filters.py`: empty input is returned as is,
otherwise the rows matching the granularity mask are kept, reindexed. -/
def filter_sales_by_date (sales : List SaleRow) (ref : Date)
    (g : TimeGranularity) : List SaleRow :=
  if sales.isEmpty then sales
  else sales.filter (fun r => granularityMask ref g r.sold_at)

theorem mem_filter_sales_by_date (sales : List SaleRow) (ref : Date)
    (g : TimeGranularity) (r : SaleRow) :
    r ∈ filter_sales_by_date sales ref g ↔
      r ∈ sales ∧ granularityMask ref g r.sold_at = true := by
  unfold filter_sales_by_date
  by_cases h : sales.isEmpty
  · rw [List.isEmpty_iff] at h
    simp [h]
  · simp [h, List.mem_filter]

/-- Sales row dated 2025-01-10T10:00Z (scenario row of the spec). -/
def janSale1 : SaleRow := ⟨some "P1", 100, 1, ⟨2025, 1, 10, 10, 0⟩, "O1"⟩

/-- Sales row dated 2025-01-31T23:59Z (scenario row of the spec). -/
def janSale2 : SaleRow := ⟨some "P2", 200, 2, ⟨2025, 1, 31, 23, 59⟩, "O2"⟩

/-- Claim C3: for every reference date, `compute_date_range` returns the specified
inclusive range for each granularity: DAY gives `(ref, ref)`; MONTH gives the
first through the last day of the reference month (leap-year aware, so
February of a leap year ends on the 29th); QUARTER gives the first day of
month `3*(q-1)+1` through the last day of month `3*q` where
`q = (month-1)/3 + 1`; YEAR gives January 1 through December 31. -/
theorem compute_date_range_spec (ref : Date)
    (hm1 : 1 ≤ ref.month) (hm2 : ref.month ≤ 12) :
    compute_date_range ref .day = (ref, ref) ∧
    compute_date_range ref .month =
      (⟨ref.year, ref.month, 1⟩, ⟨ref.year, ref.month, daysInMonth ref.year ref.month⟩) ∧
    (isLeap ref.year = true → ref.month = 2 →
      (compute_date_range ref .month).2 = ⟨ref.year, 2, 29⟩) ∧
    compute_date_range ref .quarter =
      (⟨ref.year, 3 * ((ref.month - 1) / 3 + 1 - 1) + 1, 1⟩,
       ⟨ref.year, 3 * ((ref.month - 1) / 3 + 1),
        daysInMonth ref.year (3 * ((ref.month - 1) / 3 + 1))⟩) ∧
    compute_date_range ref .year =
      (⟨ref.year, 1, 1⟩, ⟨ref.year, 12, 31⟩) := by
  obtain ⟨y, m, d⟩ := ref
  simp only at hm1 hm2 ⊢
  interval_cases m <;> simp [compute_date_range, predDay, daysInMonth]

/-- Witness for C3 at the leap-year reference date 2024-02-15: February of
the leap year 2024 ends on the 29th. -/
theorem compute_date_range_spec_witness :
    (compute_date_range ⟨2024, 2, 15⟩ .month).2 = ⟨2024, 2, 29⟩ :=
  (compute_date_range_spec ⟨2024, 2, 15⟩ (by decide) (by decide)).2.2.1
    (by decide) rfl

/-- Claim C6: the function `filter_sales_by_date` keeps exactly the rows whose UTC `sold_at`
falls in the reference period (DAY: same calendar date; MONTH: same year and
month; QUARTER: same year and same `(month-1)/3+1`; YEAR: same year),
preserving the relative order of matching rows; concretely, rows dated
2025-01-10T10:00Z and 2025-01-31T23:59Z are both kept for ref date 2025-01-05
at MONTH granularity, and only the first is kept for ref date 2025-01-10 at
DAY granularity. -/
theorem filter_sales_by_date_spec (sales : List SaleRow) (ref : Date) :
    (∀ g : TimeGranularity, (filter_sales_by_date sales ref g).Sublist sales) ∧
    (∀ r : SaleRow, r ∈ filter_sales_by_date sales ref .day ↔
      r ∈ sales ∧ r.sold_at.year = ref.year ∧ r.sold_at.month = ref.month ∧
        r.sold_at.day = ref.day) ∧
    (∀ r : SaleRow, r ∈ filter_sales_by_date sales ref .month ↔
      r ∈ sales ∧ r.sold_at.year = ref.year ∧ r.sold_at.month = ref.month) ∧
    (∀ r : SaleRow, r ∈ filter_sales_by_date sales ref .quarter ↔
      r ∈ sales ∧ r.sold_at.year = ref.year ∧
        (r.sold_at.month - 1) / 3 + 1 = (ref.month - 1) / 3 + 1) ∧
    (∀ r : SaleRow, r ∈ filter_sales_by_date sales ref .year ↔
      r ∈ sales ∧ r.sold_at.year = ref.year) ∧
    filter_sales_by_date [janSale1, janSale2] ⟨2025, 1, 5⟩ .month =
      [janSale1, janSale2] ∧
    filter_sales_by_date [janSale1, janSale2] ⟨2025, 1, 10⟩ .day =
      [janSale1] := by
  refine ⟨?_, ?_, ?_, ?_, ?_, by decide, by decide⟩
  · intro g
    unfold filter_sales_by_date
    by_cases h : sales.isEmpty
    · simp [h]
    · simp [h]
  all_goals
    intro r
    rw [mem_filter_sales_by_date]
    simp [granularityMask, and_assoc]

/-- Claim C7: the function `filter_sales_by_date` is idempotent — filtering an already filtered
result again with the same reference date and granularity is the identity. -/
theorem filter_sales_by_date_idempotent (sales : List SaleRow) (ref : Date)
    (g : TimeGranularity) :
    filter_sales_by_date (filter_sales_by_date sales ref g) ref g =
      filter_sales_by_date sales ref g := by
  by_cases h : sales.isEmpty
  · rw [List.isEmpty_iff] at h
    simp [filter_sales_by_date, h]
  · have h1 : filter_sales_by_date sales ref g =
        sales.filter (fun r => granularityMask ref g r.sold_at) := by
      unfold filter_sales_by_date
      simp [h]
    rw [h1]
    unfold filter_sales_by_date
    split
    · rfl
    · rw [List.filter_filter]
      simp

/-- Column-level model of a Pandas DataFrame: column names in order, plus the
row count. Used for the empty-schema path, whose guarantees are about the
column set itself. -/
structure Frame where
  columns : List String
  nrows : Nat
deriving DecidableEq, Repr

/-- Pandas column assignment `df[c] = series`: replaces the column in place
when present, otherwise appends it on the right. -/
def assignColumn (f : Frame) (c : String) : Frame :=
  if c ∈ f.columns then f else ⟨f.columns ++ [c], f.nrows⟩

/-- Model of `_empty_final_dataframe` from `pipeline.py`: zero rows, the nine base
columns of the final schema. -/
def empty_final_dataframe : Frame :=
  ⟨["product_id", "price", "quantity", "sold_at", "order_id",
    "product_name", "category", "brand", "condition"], 0⟩

/-- Column-level model of `_enrich_with_date_and_metadata` from
`pipeline.py`: on an empty frame, `sold_at` is added when absent and the five
derived columns are assigned; on a non-empty frame the derived columns are
assigned (four of them only when `sold_at` is present drives their values,
but the same names in either branch), then `processed_at`; the final sort
changes neither columns nor row count. -/
def enrichColumns (f : Frame) : Frame :=
  if f.nrows == 0 then
    let f1 := if "sold_at" ∈ f.columns then f else assignColumn f "sold_at"
    assignColumn (assignColumn (assignColumn (assignColumn (assignColumn f1
      "sale_date") "year") "month") "quarter") "processed_at"
  else
    let f1 :=
      if "sold_at" ∈ f.columns then
        assignColumn (assignColumn (assignColumn (assignColumn (assignColumn f
          "sold_at") "sale_date") "year") "month") "quarter"
      else
        assignColumn (assignColumn (assignColumn (assignColumn f
          "sale_date") "year") "month") "quarter"
    assignColumn f1 "processed_at"

/-- The merged table chosen by `run_pipeline` before enrichment: the empty
final frame when the loaded sales table is empty, or when the temporal filter
leaves it empty; otherwise the joined-and-filtered result. -/
def mergedFrame (salesEmpty filteredEmpty : Bool) (joined : Frame) : Frame :=
  if salesEmpty then empty_final_dataframe
  else if filteredEmpty then empty_final_dataframe
  else joined

/-- The full export column set, in order. -/
def exportColumns : List String :=
  ["product_id", "price", "quantity", "sold_at", "order_id",
   "product_name", "category", "brand", "condition",
   "sale_date", "year", "month", "quarter", "processed_at"]

/-- Claim C2: whenever the loaded sales table is empty, or becomes empty after the
temporal filter, the pipeline short-circuits and the final enriched table has
zero rows and carries the full export column set. -/
theorem empty_run_has_full_export_schema (salesEmpty filteredEmpty : Bool)
    (joined : Frame) (h : salesEmpty = true ∨ filteredEmpty = true) :
    (enrichColumns (mergedFrame salesEmpty filteredEmpty joined)).columns =
      exportColumns ∧
    (enrichColumns (mergedFrame salesEmpty filteredEmpty joined)).nrows = 0 := by
  have hm : mergedFrame salesEmpty filteredEmpty joined =
      empty_final_dataframe := by
    rcases h with h | h <;> subst h
    · simp [mergedFrame]
    · cases salesEmpty <;> simp [mergedFrame]
  rw [hm]
  exact ⟨rfl, rfl⟩

/-- Witness for C2: a run whose loaded sales table is empty, against an
arbitrary junk frame on the non-empty branch. -/
theorem empty_run_has_full_export_schema_witness :
    (enrichColumns (mergedFrame true false ⟨["junk"], 7⟩)).columns =
      exportColumns ∧
    (enrichColumns (mergedFrame true false ⟨["junk"], 7⟩)).nrows = 0 :=
  empty_run_has_full_export_schema true false ⟨["junk"], 7⟩ (Or.inl rfl)

/-- The failure kinds raised by `load_sales_parquet`: the Python built-in
`ValueError` on an inverted range, plus the taxonomy of `exceptions.py`
(`TooManyFilesError`, `DataLoadError`). -/
inductive LoadError where
  | valueError
  | tooManyFiles
  | dataLoad
deriving DecidableEq, Repr

/-- Class membership in `DataLoadError` per `exceptions.py`:
`TooManyFilesError` is declared as a subclass of `DataLoadError`;
`ValueError` is unrelated. -/
def LoadError.isDataLoadError : LoadError → Bool
  | .valueError => false
  | .tooManyFiles => true
  | .dataLoad => true

/-- Outcome of one per-day blob download attempt against the object store:
the rows of the day file, a not-found signal, or any other API failure. -/
inductive FetchResult where
  | found (rows : List SaleRow)
  | notFound
  | apiError
deriving Repr

/-- Result of a sales load: an error or the concatenated rows, paired with
the list of days for which a download was actually attempted, in order. -/
structure LoadOutcome where
  result : Except LoadError (List SaleRow)
  fetchedDays : List Date
deriving Repr

/-- The download loop of `load_sales_parquet`: try each day in order; a
not-found day is logged and skipped, any other API failure aborts the whole
load with `DataLoadError`; per-day frames are concatenated in day order. -/
def fetchDays (fetch : Date → FetchResult) :
    List Date → Except LoadError (List SaleRow) × List Date
  | [] => (Except.ok [], [])
  | d :: ds =>
    match fetch d with
    | .apiError => (Except.error .dataLoad, [d])
    | .notFound =>
        let rest := fetchDays fetch ds
        (rest.1, d :: rest.2)
    | .found rows =>
        let rest := fetchDays fetch ds
        (match rest.1 with
         | .ok tail => Except.ok (rows ++ tail)
         | .error e => Except.error e,
         d :: rest.2)

/-- The fetching stage of `load_sales_parquet`, once the guards have passed:
iterate over the `num_days` consecutive days starting at `start`. -/
def salesLoadLoop (fetch : Date → FetchResult) (start : Date)
    (numDays : Nat) : LoadOutcome :=
  let r := fetchDays fetch ((List.range numDays).map (addDays start))
  ⟨r.1, r.2⟩

/-- Model of `load_sales_parquet` from `gcs_client.py`, with the object-store
collaborator injected as `fetch`. First guard: `ValueError` when
`end_date < start_date`. Second guard: `TooManyFilesError` when
`num_days = (end_date - start_date).days + 1` exceeds `max_files` (when a
bound is given). Only then does the per-day download loop run. -/
def load_sales_parquet (fetch : Date → FetchResult)
    (start_date end_date : Date) (max_files : Option Nat) : LoadOutcome :=
  if dateLt end_date start_date then
    ⟨Except.error .valueError, []⟩
  else
    let num_days : Int := (toOrdinal end_date : Int) - toOrdinal start_date + 1
    match max_files with
    | some mf =>
        if num_days > (mf : Int) then ⟨Except.error .tooManyFiles, []⟩
        else salesLoadLoop fetch start_date num_days.toNat
    | none => salesLoadLoop fetch start_date num_days.toNat

/-- Claim C1: when `num_days = end - start + 1` exceeds the `max_files` bound,
`load_sales_parquet` fails with `TooManyFilesError` — a `DataLoadError` —
and no per-day download is attempted. -/
theorem load_sales_too_many_files_before_fetch (fetch : Date → FetchResult)
    (start_date end_date : Date) (mf : Nat)
    (hrange : dateLt end_date start_date = false)
    (hexceeds :
      (toOrdinal end_date : Int) - toOrdinal start_date + 1 > (mf : Int)) :
    (load_sales_parquet fetch start_date end_date (some mf)).result =
      Except.error LoadError.tooManyFiles ∧
    (load_sales_parquet fetch start_date end_date (some mf)).fetchedDays = [] ∧
    LoadError.tooManyFiles.isDataLoadError = true := by
  unfold load_sales_parquet
  simp [hrange, hexceeds]
  rfl

/-- Witness for C1: `max_files = 500` and the 501-day range 2024-01-01 to
2025-05-15, against a collaborator that would fail loudly if ever invoked. -/
theorem load_sales_too_many_files_before_fetch_witness :
    (load_sales_parquet (fun _ => FetchResult.apiError)
        ⟨2024, 1, 1⟩ ⟨2025, 5, 15⟩ (some 500)).result =
      Except.error LoadError.tooManyFiles ∧
    (load_sales_parquet (fun _ => FetchResult.apiError)
        ⟨2024, 1, 1⟩ ⟨2025, 5, 15⟩ (some 500)).fetchedDays = [] ∧
    LoadError.tooManyFiles.isDataLoadError = true :=
  load_sales_too_many_files_before_fetch (fun _ => FetchResult.apiError)
    ⟨2024, 1, 1⟩ ⟨2025, 5, 15⟩ 500 (by decide) (by decide)

/-- Claim C10: when `end_date` is strictly before `start_date`,
`load_sales_parquet` raises `ValueError` before any other action, whatever
the `max_files` bound, and no download is attempted. -/
theorem load_sales_inverted_range_value_error (fetch : Date → FetchResult)
    (start_date end_date : Date) (max_files : Option Nat)
    (h : dateLt end_date start_date = true) :
    (load_sales_parquet fetch start_date end_date max_files).result =
      Except.error LoadError.valueError ∧
    (load_sales_parquet fetch start_date end_date max_files).fetchedDays
      = [] := by
  unfold load_sales_parquet
  simp [h]

/-- Witness for C10: the inverted range 2024-01-02 down to 2024-01-01 with no
`max_files` bound at all. -/
theorem load_sales_inverted_range_value_error_witness :
    (load_sales_parquet (fun _ => FetchResult.apiError)
        ⟨2024, 1, 2⟩ ⟨2024, 1, 1⟩ none).result =
      Except.error LoadError.valueError ∧
    (load_sales_parquet (fun _ => FetchResult.apiError)
        ⟨2024, 1, 2⟩ ⟨2024, 1, 1⟩ none).fetchedDays = [] :=
  load_sales_inverted_range_value_error (fun _ => FetchResult.apiError)
    ⟨2024, 1, 2⟩ ⟨2024, 1, 1⟩ none (by decide)

/-- A product catalog row (schema of `bq_client.load_products`). Every field
is `Option` since BigQuery columns are nullable. -/
structure ProductRow where
  product_id : Option String
  product_name : Option String
  category : Option String
  brand : Option String
  condition : Option String
deriving DecidableEq, Repr

/-- Lexicographic code-point order on character lists, the order Pandas uses
to sort Python strings. -/
def strLtAux : List Char → List Char → Bool
  | [], [] => false
  | [], _ :: _ => true
  | _ :: _, [] => false
  | a :: as, b :: bs =>
      if a.toNat < b.toNat then true
      else if b.toNat < a.toNat then false
      else strLtAux as bs

/-- Strict lexicographic order on strings. -/
def strLt (x y : String) : Bool := strLtAux x.data y.data

/-- Strict ascending order on the `product_id` sort key; a missing id sorts
after every present id (Pandas sorts NaN keys last). -/
def pidLt (a b : Option String) : Bool :=
  match a, b with
  | none, _ => false
  | some _, none => true
  | some x, some y => strLt x y

/-- Insert a row into a list sorted ascending by `product_id`, before the
first strictly greater key, so equal keys keep their relative order. -/
def insertByPid (p : ProductRow) : List ProductRow → List ProductRow
  | [] => [p]
  | q :: qs =>
      if pidLt q.product_id p.product_id then q :: insertByPid p qs
      else p :: q :: qs

/-- Pandas `products_df.sort_values("product_id")`: sort the catalog ascending by
`product_id`, modelled as a stable insertion sort. -/
def sortByProductId : List ProductRow → List ProductRow
  | [] => []
  | p :: ps => insertByPid p (sortByProductId ps)

/-- Pandas `drop_duplicates(subset="product_id", keep="last")`: keep a row exactly
when no later row carries the same `product_id`. -/
def dropDuplicatesKeepLast : List ProductRow → List ProductRow
  | [] => []
  | p :: ps =>
      if ps.any (fun q => q.product_id == p.product_id) then
        dropDuplicatesKeepLast ps
      else p :: dropDuplicatesKeepLast ps

/-- The catalog dedup of `run_pipeline` step 6: sort by `product_id`, then
drop duplicates keeping the last row per id. -/
def dedupProducts (ps : List ProductRow) : List ProductRow :=
  dropDuplicatesKeepLast (sortByProductId ps)

/-- The guarded dedup of `run_pipeline`: only applied when `product_id` is
not unique in the catalog. -/
def dedupIfNeeded (ps : List ProductRow) : List ProductRow :=
  if (ps.map (fun r => r.product_id)).Nodup then ps else dedupProducts ps

theorem mem_insertByPid (p a : ProductRow) (l : List ProductRow) :
    a ∈ insertByPid p l ↔ a = p ∨ a ∈ l := by
  induction l with
  | nil => simp [insertByPid]
  | cons q qs ih =>
      rw [insertByPid]
      split
      · simp [ih]
        tauto
      · simp

theorem mem_sortByProductId (a : ProductRow) (l : List ProductRow) :
    a ∈ sortByProductId l ↔ a ∈ l := by
  induction l with
  | nil => simp [sortByProductId]
  | cons p ps ih =>
      rw [sortByProductId, mem_insertByPid]
      simp [ih]

theorem filter_dropDuplicatesKeepLast (pid : Option String)
    (l : List ProductRow) :
    (dropDuplicatesKeepLast l).filter (fun r => r.product_id == pid) =
      ((l.filter (fun r => r.product_id == pid)).getLast?).toList := by
  induction l with
  | nil => rfl
  | cons p ps ih =>
      rw [dropDuplicatesKeepLast]
      by_cases hp : p.product_id = pid
      · by_cases hany : ps.any (fun q => q.product_id == p.product_id) = true
        · rw [if_pos hany, ih, List.filter_cons_of_pos (by simp [hp])]
          obtain ⟨q, hq, hqid⟩ := List.any_eq_true.mp hany
          have hne : ps.filter (fun r => r.product_id == pid) ≠ [] := by
            intro hnil
            have : q ∈ ps.filter (fun r => r.product_id == pid) :=
              List.mem_filter.mpr ⟨hq, by simp [beq_iff_eq.mp hqid, hp]⟩
            simp [hnil] at this
          obtain ⟨x, t, hxt⟩ := List.exists_cons_of_ne_nil hne
          rw [hxt, List.getLast?_cons_cons]
        · rw [if_neg hany, List.filter_cons_of_pos (by simp [hp]), ih]
          have hnil : ps.filter (fun r => r.product_id == pid) = [] := by
            rw [List.filter_eq_nil_iff]
            intro q hq hqid
            exact hany (List.any_eq_true.mpr
              ⟨q, hq, by simp [beq_iff_eq.mp hqid, hp]⟩)
          rw [List.filter_cons_of_pos (by simp [hp]), hnil]
          rfl
      · have hfilter : ∀ m : List ProductRow,
            (p :: m).filter (fun r => r.product_id == pid) =
              m.filter (fun r => r.product_id == pid) := by
          intro m
          exact List.filter_cons_of_neg (by simp [hp])
        split
        · rw [ih, hfilter]
        · rw [hfilter, ih, hfilter]

/-- First of the two duplicate catalog rows with `product_id = "A"` of the
spec scenario. -/
def prodA1 : ProductRow :=
  ⟨some "A", some "Alpha one", some "c1", some "B1", some "new"⟩

/-- Second of the two duplicate catalog rows with `product_id = "A"` of the
spec scenario. -/
def prodA2 : ProductRow :=
  ⟨some "A", some "Alpha two", some "c2", some "B2", some "used"⟩

/-- Claim C4: on a catalog with duplicate `product_id` values, the dedup keeps
exactly one row per present id, namely the last row carrying that id in the
ascending-`product_id` sorted catalog; in the two-duplicate-"A"-rows
scenario, exactly one "A" row survives and it is the last duplicate of the
sorted catalog. -/
theorem dedup_products_keeps_last_sorted (ps : List ProductRow)
    (hdup : ¬ (ps.map (fun r => r.product_id)).Nodup) :
    (∀ pid : Option String, (∃ r ∈ ps, r.product_id = pid) →
      (dedupIfNeeded ps).countP (fun r => r.product_id == pid) = 1) ∧
    (∀ pid : Option String, (∃ r ∈ ps, r.product_id = pid) →
      (dedupIfNeeded ps).filter (fun r => r.product_id == pid) =
        (((sortByProductId ps).filter
          (fun r => r.product_id == pid)).getLast?).toList) ∧
    (dedupIfNeeded [prodA1, prodA2]).length = 1 ∧
    dedupIfNeeded [prodA1, prodA2] =
      ((sortByProductId [prodA1, prodA2]).getLast?).toList := by
  have hchar : ∀ pid : Option String,
      (dedupIfNeeded ps).filter (fun r => r.product_id == pid) =
        (((sortByProductId ps).filter
          (fun r => r.product_id == pid)).getLast?).toList := by
    intro pid
    rw [dedupIfNeeded, if_neg hdup]
    exact filter_dropDuplicatesKeepLast pid (sortByProductId ps)
  refine ⟨?_, fun pid _ => hchar pid, by decide, by decide⟩
  intro pid ⟨r, hr, hrid⟩
  have hne : (sortByProductId ps).filter (fun r => r.product_id == pid)
      ≠ [] := by
    intro hnil
    have : r ∈ (sortByProductId ps).filter (fun r => r.product_id == pid) :=
      List.mem_filter.mpr ⟨(mem_sortByProductId r ps).mpr hr, by simp [hrid]⟩
    simp [hnil] at this
  rw [List.countP_eq_length_filter, hchar pid,
    List.getLast?_eq_getLast _ hne]
  rfl

/-- Witness for C4: the two-duplicate-rows catalog of the spec scenario,
instantiating the per-id conjuncts at `product_id = "A"`. -/
theorem dedup_products_keeps_last_sorted_witness :
    (dedupIfNeeded [prodA1, prodA2]).countP
      (fun r => r.product_id == some "A") = 1 ∧
    (dedupIfNeeded [prodA1, prodA2]).length = 1 :=
  ⟨(dedup_products_keeps_last_sorted [prodA1, prodA2]
      (by decide)).1 (some "A") ⟨prodA1, by simp, rfl⟩,
   (dedup_products_keeps_last_sorted [prodA1, prodA2] (by decide)).2.2.1⟩

/-- One row of the joined sales-products table: the sale fields plus the
matched catalog row, or `none` when no catalog row matched (every product
field of the output row is then null). -/
structure MergedRow where
  sale : SaleRow
  product : Option ProductRow
deriving DecidableEq, Repr

/-- Join-key equality of Pandas `merge(on="product_id")`: null keys match
nothing, not even other null keys. -/
def keyMatch (a b : Option String) : Bool :=
  match a, b with
  | some x, some y => x == y
  | _, _ => false

/-- The join block contributed by one sales row: one output row per matching
catalog row, or a single null-padded row when nothing matches. -/
def joinOneSale (products : List ProductRow) (s : SaleRow) : List MergedRow :=
  match products.filter (fun p => keyMatch p.product_id s.product_id) with
  | [] => [⟨s, none⟩]
  | ms => ms.map (fun p => ⟨s, some p⟩)

/-- The merge `filtered_sales_df.merge(products_df, on="product_id", how="left")` from
`run_pipeline` step 7: left join of sales to catalog on `product_id`,
preserving the order of the sales rows. -/
def leftJoinOnProductId (sales : List SaleRow)
    (products : List ProductRow) : List MergedRow :=
  sales.flatMap (joinOneSale products)

theorem filter_keyMatch_length_le_one (k : Option String) :
    ∀ products : List ProductRow,
      (products.map (fun p => p.product_id)).Nodup →
      (products.filter (fun p => keyMatch p.product_id k)).length ≤ 1 := by
  intro products
  induction products with
  | nil => intro _; simp
  | cons p ps ih =>
      intro h
      rw [List.map_cons, List.nodup_cons] at h
      by_cases hp : keyMatch p.product_id k = true
      · have hcons : List.filter (fun q => keyMatch q.product_id k) (p :: ps) =
            p :: List.filter (fun q => keyMatch q.product_id k) ps :=
          List.filter_cons_of_pos hp
        rw [hcons]
        have hnil : ps.filter (fun q => keyMatch q.product_id k) = [] := by
          rw [List.filter_eq_nil_iff]
          intro q hq hk
          apply h.1
          rw [List.mem_map]
          refine ⟨q, hq, ?_⟩
          cases hk1 : p.product_id with
          | none => rw [hk1] at hp; cases k <;> simp [keyMatch] at hp
          | some a =>
              cases hk2 : q.product_id with
              | none => rw [hk2] at hk; cases k <;> simp [keyMatch] at hk
              | some b =>
                  cases k with
                  | none => rw [hk1] at hp; simp [keyMatch] at hp
                  | some c =>
                      rw [hk1] at hp
                      rw [hk2] at hk
                      simp [keyMatch] at hp hk
                      simp [hp, hk]
        rw [hnil]
        simp
      · have hcons : List.filter (fun q => keyMatch q.product_id k) (p :: ps) =
            List.filter (fun q => keyMatch q.product_id k) ps :=
          List.filter_cons_of_neg hp
        rw [hcons]
        exact ih h.2

theorem joinOneSale_map_sale (products : List ProductRow) (s : SaleRow)
    (hnodup : (products.map (fun p => p.product_id)).Nodup) :
    (joinOneSale products s).map (fun m => m.sale) = [s] := by
  rw [joinOneSale]
  cases hfilter : products.filter (fun p => keyMatch p.product_id s.product_id)
  with
  | nil => rfl
  | cons p t =>
      have hlen := filter_keyMatch_length_le_one s.product_id products hnodup
      rw [hfilter] at hlen
      have ht : t = [] := by
        cases t
        · rfl
        · simp at hlen
      subst ht
      rfl

theorem leftJoin_map_sale (products : List ProductRow)
    (hnodup : (products.map (fun p => p.product_id)).Nodup) :
    ∀ sales : List SaleRow,
      (leftJoinOnProductId sales products).map (fun m => m.sale) = sales := by
  intro sales
  induction sales with
  | nil => rfl
  | cons s ss ih =>
      rw [leftJoinOnProductId, List.flatMap_cons, List.map_append]
      rw [joinOneSale_map_sale products s hnodup]
      rw [leftJoinOnProductId] at ih
      rw [ih]
      rfl

/-- Claim C5: for a non-empty sales table with non-null `product_id`s joined
against a catalog with unique `product_id` values, the left join yields
exactly one output row per sales row, in order — the same row count, no sale
duplicated, and a sale without a catalog match retained with null product
fields. -/
theorem left_join_preserves_sales_rows (sales : List SaleRow)
    (products : List ProductRow) (_hne : sales ≠ [])
    (_hids : ∀ s ∈ sales, s.product_id ≠ none)
    (hnodup : (products.map (fun p => p.product_id)).Nodup) :
    (leftJoinOnProductId sales products).map (fun m => m.sale) = sales ∧
    (leftJoinOnProductId sales products).length = sales.length ∧
    (∀ s ∈ sales,
      products.filter (fun p => keyMatch p.product_id s.product_id) = [] →
      MergedRow.mk s none ∈ leftJoinOnProductId sales products) := by
  have hmap := leftJoin_map_sale products hnodup sales
  refine ⟨hmap, ?_, ?_⟩
  · have := congrArg List.length hmap
    rwa [List.length_map] at this
  · intro s hs hfilter
    have hblock : MergedRow.mk s none ∈ joinOneSale products s := by
      rw [joinOneSale, hfilter]
      exact List.mem_singleton.mpr rfl
    exact List.mem_flatMap.mpr ⟨s, hs, hblock⟩

/-- Witness for C5: one matched sale, one unmatched sale, a two-row catalog
with distinct ids. -/
theorem left_join_preserves_sales_rows_witness :
    (leftJoinOnProductId [janSale1, janSale2] [prodA1]).map
      (fun m => m.sale) = [janSale1, janSale2] ∧
    (leftJoinOnProductId [janSale1, janSale2] [prodA1]).length = 2 ∧
    (∀ s ∈ [janSale1, janSale2],
      [prodA1].filter (fun p => keyMatch p.product_id s.product_id) = [] →
      MergedRow.mk s none ∈ leftJoinOnProductId [janSale1, janSale2]
        [prodA1]) :=
  left_join_preserves_sales_rows [janSale1, janSale2] [prodA1]
    (by decide) (by decide) (by decide)

/-- The `brand` value of a joined row: null when the sale had no catalog
match or the brand of the matched product is null. -/
def rowBrand (m : MergedRow) : Option String :=
  m.product.bind (fun p => p.brand)

/-- The `product_id` value of a joined row (the join key, from the sale). -/
def rowProductId (m : MergedRow) : Option String :=
  m.sale.product_id

/-- Pandas `Series.isin(allow)` membership test on a nullable string value:
a null value is never a member. -/
def memberOfAllowList (v : Option String) (allow : List String) : Bool :=
  match v with
  | some x => allow.contains x
  | none => false

/-- The business filters of `run_pipeline` step 8. Python truthiness on
`config.brands` / `config.product_ids`: a `None` or empty allow-list skips
that filter entirely; otherwise rows pass by `isin` membership. The brand
filter runs first, then the product-id filter on its output. -/
def applyBusinessFilters (brands product_ids : Option (List String))
    (rows : List MergedRow) : List MergedRow :=
  let rows1 :=
    match brands with
    | some bs =>
        if bs.isEmpty then rows
        else rows.filter (fun m => memberOfAllowList (rowBrand m) bs)
    | none => rows
  match product_ids with
  | some ids =>
      if ids.isEmpty then rows1
      else rows1.filter (fun m => memberOfAllowList (rowProductId m) ids)
  | none => rows1

theorem memberOfAllowList_iff (v : Option String) (allow : List String) :
    memberOfAllowList v allow = true ↔ ∃ x, v = some x ∧ x ∈ allow := by
  cases v with
  | none => simp [memberOfAllowList]
  | some x => simp [memberOfAllowList, List.contains_iff_exists_mem_beq]

/-- A catalog row with brand `BrandX` (spec scenario). -/
def brandXProduct : ProductRow :=
  ⟨some "P1", some "Name one", some "cat", some "BrandX", some "new"⟩

/-- A catalog row with brand `BrandY` (spec scenario). -/
def brandYProduct : ProductRow :=
  ⟨some "P2", some "Name two", some "cat", some "BrandY", some "new"⟩

/-- Joined row carrying brand `BrandX` (spec scenario). -/
def mergedX : MergedRow := ⟨janSale1, some brandXProduct⟩

/-- Joined row carrying brand `BrandY` (spec scenario). -/
def mergedY : MergedRow := ⟨janSale2, some brandYProduct⟩

/-- Claim C8: with a non-empty brand allow-list configured, exactly the joined
rows whose brand is a member of the list are kept, and a null brand never
passes; the product-id filter behaves analogously on `product_id`; with both
configured, a row is kept iff it passes both (intersection); scenario: the
allow-list `["BrandX"]` over rows with brands BrandX and BrandY keeps only
the BrandX row. -/
theorem business_filters_spec (rows : List MergedRow)
    (bs ids : List String) (hbs : bs ≠ []) (hids : ids ≠ []) :
    (∀ m : MergedRow, m ∈ applyBusinessFilters (some bs) none rows ↔
      m ∈ rows ∧ ∃ b, rowBrand m = some b ∧ b ∈ bs) ∧
    (∀ m : MergedRow, rowBrand m = none →
      m ∉ applyBusinessFilters (some bs) none rows) ∧
    (∀ m : MergedRow, m ∈ applyBusinessFilters none (some ids) rows ↔
      m ∈ rows ∧ ∃ x, rowProductId m = some x ∧ x ∈ ids) ∧
    (∀ m : MergedRow, m ∈ applyBusinessFilters (some bs) (some ids) rows ↔
      m ∈ rows ∧ (∃ b, rowBrand m = some b ∧ b ∈ bs) ∧
        (∃ x, rowProductId m = some x ∧ x ∈ ids)) ∧
    applyBusinessFilters (some ["BrandX"]) none [mergedX, mergedY] =
      [mergedX] := by
  have hbe : bs.isEmpty = false := List.isEmpty_eq_false.mpr hbs
  have hie : ids.isEmpty = false := List.isEmpty_eq_false.mpr hids
  refine ⟨?_, ?_, ?_, ?_, by decide⟩
  · intro m
    simp [applyBusinessFilters, hbe, List.mem_filter, memberOfAllowList_iff]
  · intro m hnull hmem
    simp [applyBusinessFilters, hbe, List.mem_filter, memberOfAllowList_iff,
      hnull] at hmem
  · intro m
    simp [applyBusinessFilters, hie, List.mem_filter, memberOfAllowList_iff]
  · intro m
    simp [applyBusinessFilters, hbe, hie, List.mem_filter,
      memberOfAllowList_iff, and_assoc]
    tauto

/-- Witness for C8: the allow-lists `["BrandX"]` and `["P1"]` over the two
scenario rows, instantiating the membership conjuncts at the BrandX row. -/
theorem business_filters_spec_witness :
    (mergedX ∈ applyBusinessFilters (some ["BrandX"]) none
        [mergedX, mergedY] ↔
      mergedX ∈ [mergedX, mergedY] ∧
        ∃ b, rowBrand mergedX = some b ∧ b ∈ ["BrandX"]) ∧
    applyBusinessFilters (some ["BrandX"]) none [mergedX, mergedY] =
      [mergedX] :=
  ⟨(business_filters_spec [mergedX, mergedY] ["BrandX"] ["P1"]
      (by decide) (by decide)).1 mergedX,
   (business_filters_spec [mergedX, mergedY] ["BrandX"] ["P1"]
      (by decide) (by decide)).2.2.2.2⟩

/-- Claim C9: an allow-list configured as the empty list (rather than absent) is
falsy in Python, so the corresponding filter is skipped entirely and every
joined row is kept — the filter result is the same as with no list at all. -/
theorem empty_allow_list_filter_skipped (rows : List MergedRow) :
    (∀ pids : Option (List String),
      applyBusinessFilters (some []) pids rows =
        applyBusinessFilters none pids rows) ∧
    (∀ bs : Option (List String),
      applyBusinessFilters bs (some []) rows =
        applyBusinessFilters bs none rows) ∧
    applyBusinessFilters (some []) (some []) rows = rows := by
  refine ⟨?_, ?_, rfl⟩
  · intro pids
    cases pids <;> rfl
  · intro bs
    cases bs <;> rfl

end GcpSales
